import Mathlib

/-!
Verification of the python-haystack core against its specification.

The development shallowly embeds the relevant parts of the source:
* `haystack/allocators/win32/winheapwalker.py` — the Windows heap walker
  (`WinHeapWalker._set_chunk_lists`, `_check_sizes`) and the heap finder
  (`WinHeapFinder._find_heap`, `list_heap_walkers`);
* `haystack/abouchet.py` — the searcher (`StructFinder.find_struct`,
  `find_struct_in`, `loadAt`, `VerboseStructFinder.loadAt`, `_search`,
  `_output`, `_find_struct`).

Python integers are embedded as `Nat`/`Int` (they are unbounded), python
sets of `(addr, size)` tuples as `Finset (Int × Int)`, python lists as
`List`, and raised exceptions as `Except` errors.
-/

namespace Haystack

/-! ### Windows heap walker: `WinHeapWalker._set_chunk_lists` -/

/-- A chunk is an `(address, size)` pair, as the python tuples held in the
walker's sets.  Sizes are integers: a corrupted heap can produce
non-positive sizes, which `_check_sizes` screens for. -/
abbrev Chunk := ℤ × ℤ

/-- The inputs of `WinHeapWalker._set_chunk_lists`, i.e. the values the
walker obtains from its validator and from the `HEAP` record:
`vallocs = self._get_virtualallocations()` (already projected to
`(addr, c_size)`), `(chunks, free_chunks) = self._get_chunks()`,
`(front_allocs, front_free) = self._get_frontend_chunks()`,
`frontEndHeapType = self.get_heap().FrontEndHeapType`, and
`sublen = ctypes.sizeof(self._heap_module.HEAP_ENTRY)`. -/
structure WalkerInput where
  vallocs : Finset Chunk
  chunks : Finset Chunk
  free_chunks : Finset Chunk
  front_allocs : Finset Chunk
  front_free : Finset Chunk
  frontEndHeapType : ℕ
  sublen : ℤ

/-- `WinHeapWalker._check_sizes`: `True` iff every chunk of the set has a
positive size (the python code raises `ValueError` otherwise). -/
def check_sizes (s : Finset Chunk) : Bool :=
  decide (∀ p ∈ s, 0 < p.2)

/-- The header-cutting comprehension of `_set_chunk_lists`:
`set([(addr + sublen, size - sublen) for addr, size in s])`. -/
def cut_header (sublen : ℤ) (s : Finset Chunk) : Finset Chunk :=
  s.image (fun p => (p.1 + sublen, p.2 - sublen))

/-- The message of the `ValueError` raised by `_check_sizes` (the python
message also interpolates the offending address; the payload is irrelevant
to control flow). -/
def heap_corruption_error : String := "chunk size cannot be negative"

/-- One `self._check_sizes(s)` call of `_set_chunk_lists`: raise
`ValueError` when some chunk of `s` has non-positive size, otherwise
continue with the rest of the walk. -/
def check_sizes_guard (s : Finset Chunk)
    (k : Except String (Option (Finset Chunk × Finset Chunk))) :
    Except String (Option (Finset Chunk × Finset Chunk)) :=
  if check_sizes s = false then .error heap_corruption_error else k

/-- `WinHeapWalker._set_chunk_lists`, returning the final
`(self._allocs, self._free_chunks)` pair.  `Except.error` models the
`ValueError` raised by `_check_sizes`; the `Option` is `none` when
`FrontEndHeapType` is none of `0`, `1`, `2`, in which case the python code
leaves both placeholders set to `None`. -/
def set_chunk_lists (i : WalkerInput) : Except String (Option (Finset Chunk × Finset Chunk)) :=
  check_sizes_guard i.vallocs
  (check_sizes_guard i.chunks
  (check_sizes_guard i.free_chunks
  (let chunks2 := cut_header i.sublen i.chunks
   let backend_allocs := i.vallocs ∪ chunks2
   check_sizes_guard backend_allocs
   (let backend_free_chunks := cut_header i.sublen i.free_chunks
    check_sizes_guard backend_free_chunks
    (if i.frontEndHeapType = 0 then
      .ok (some (backend_allocs, backend_free_chunks))
     else
      check_sizes_guard i.front_allocs
      (check_sizes_guard i.front_free
      (let front_allocs2 := i.front_allocs
       let front_free_chunks2 := i.front_free
       check_sizes_guard front_allocs2
       (check_sizes_guard front_free_chunks2
       (if i.frontEndHeapType = 1 then
          .ok (some (backend_allocs \ front_free_chunks2,
                     front_free_chunks2 ∪ backend_free_chunks))
        else if i.frontEndHeapType = 2 then
          .ok (some ((backend_allocs \ front_free_chunks2) ∪ front_allocs2,
                     front_free_chunks2 ∪ backend_free_chunks))
        else
          .ok none)))))))))

theorem check_sizes_spec (s : Finset Chunk) :
    check_sizes s = true ↔ ∀ p ∈ s, 0 < p.2 := by
  simp [check_sizes]

theorem check_sizes_guard_of_true {s : Finset Chunk}
    (h : check_sizes s = true)
    (k : Except String (Option (Finset Chunk × Finset Chunk))) :
    check_sizes_guard s k = k := by
  simp [check_sizes_guard, h]

theorem check_sizes_guard_ok_iff {s : Finset Chunk}
    {k : Except String (Option (Finset Chunk × Finset Chunk))}
    {v : Option (Finset Chunk × Finset Chunk)} :
    check_sizes_guard s k = .ok v ↔ check_sizes s = true ∧ k = .ok v := by
  cases h : check_sizes s <;> simp [check_sizes_guard, h]

theorem check_sizes_guard_error_iff {s : Finset Chunk}
    {k : Except String (Option (Finset Chunk × Finset Chunk))} :
    check_sizes_guard s k = .error heap_corruption_error ↔
      check_sizes s = false ∨ k = .error heap_corruption_error := by
  cases h : check_sizes s <;> simp [check_sizes_guard, h]

/-! ### Searcher: `haystack/abouchet.py` -/

/-- The python exceptions that flow through `StructFinder`:
`IOError` from a backend read, `TypeError` from a bad call, `ValueError`
and `HaystackError` raised explicitly by `abouchet.py`. -/
inductive PyErr where
  | ioError
  | typeError
  | valueError (msg : String)
  | haystackError (msg : String)
deriving DecidableEq

/-- A memory mapping, reduced to the attributes `find_struct_in` and
`_search` consult: `start` (inclusive) and `stop` (the python `end`,
exclusive). -/
structure MemMap where
  start : ℕ
  stop : ℕ
deriving DecidableEq

/-- `hintOffset in memoryMap`: python `__contains__` on a mapping, i.e.
`start <= addr < end`. -/
def MemMap.containsb (m : MemMap) (a : ℕ) : Bool :=
  decide (m.start ≤ a ∧ a < m.stop)

/-- Python 2 `xrange(start, stop, step)` for a positive step: the
arithmetic progression `start, start + step, ...` strictly below `stop`. -/
def xrange (start stop step : ℕ) : List ℕ :=
  (List.range ((stop - start + step - 1) / step)).map (fun k => start + k * step)

/-- `StructFinder.loadAt(memoryMap, offset, structType, depth)`.
`read offset` embeds `memoryMap.read_struct(offset, structType)` (the
mapping and record type are fixed parameters of a scan) and
`validate inst depth` embeds `instance.loadMembers(self.mappings, depth)`.
The pair `(instance, validated)` is returned; a read failure propagates. -/
def loadAt (read : ℕ → Except PyErr ℕ) (validate : ℕ → ℕ → Bool)
    (offset depth : ℕ) : Except PyErr (ℕ × Bool) :=
  match read offset with
  | .error e => .error e
  | .ok inst => .ok (inst, validate inst depth)

/-- The cursor start chosen by `find_struct_in`: the hint aligned down to
pointer width when the hint is an absolute address inside the mapping, the
mapping start plus the aligned hint when the hint reads as a relative
offset, and the mapping start otherwise. -/
def align_start (m : MemMap) (plen hintOffset : ℕ) : ℕ :=
  if m.containsb hintOffset then hintOffset - hintOffset % plen
  else if hintOffset ≠ 0 ∧ hintOffset < m.stop - m.start then
    m.start + (hintOffset - hintOffset % plen)
  else m.start

/-- The scan loop of `find_struct_in`: visit each offset in order, load
and validate, append `(instance, offset)` on success, and break as soon as
`len(outputs) >= maxNum` (checked after every offset, whether or not it
validated).  An exception from `loadAt` propagates: the python loop has no
`try`/`except`. -/
def scan_loop (load : ℕ → Except PyErr (ℕ × Bool)) (maxNum : ℤ) :
    List ℕ → List (ℕ × ℕ) → Except PyErr (List (ℕ × ℕ))
  | [], outputs => .ok outputs
  | offset :: rest, outputs =>
    match load offset with
    | .error e => .error e
    | .ok (inst, validated) =>
      let outputs2 := if validated then outputs ++ [(inst, offset)] else outputs
      if maxNum ≤ (outputs2.length : ℤ) then .ok outputs2
      else scan_loop load maxNum rest outputs2

/-- `StructFinder.find_struct_in`: scan one mapping at pointer-aligned
offsets `xrange(start, end - structlen, plen)` where `start` honours the
hint, collecting validated instances up to `maxNum`. -/
def find_struct_in (read : ℕ → Except PyErr ℕ) (validate : ℕ → ℕ → Bool)
    (m : MemMap) (structlen plen hintOffset : ℕ) (maxNum : ℤ) (maxDepth : ℕ) :
    Except PyErr (List (ℕ × ℕ)) :=
  scan_loop (fun offset => loadAt read validate offset maxDepth) maxNum
    (xrange (align_start m plen hintOffset) (m.stop - structlen) plen) []

/-- The mapping loop of `StructFinder.find_struct`: extend the outputs
with each mapping's results and break as soon as
`len(outputs) >= maxNum`. -/
def find_struct_loop (read : ℕ → Except PyErr ℕ) (validate : ℕ → ℕ → Bool)
    (structlen plen hintOffset : ℕ) (maxNum : ℤ) (maxDepth : ℕ) :
    List MemMap → List (ℕ × ℕ) → Except PyErr (List (ℕ × ℕ))
  | [], outputs => .ok outputs
  | m :: rest, outputs =>
    match find_struct_in read validate m structlen plen hintOffset maxNum maxDepth with
    | .error e => .error e
    | .ok outs =>
      let outputs2 := outputs ++ outs
      if maxNum ≤ (outputs2.length : ℤ) then .ok outputs2
      else find_struct_loop read validate structlen plen hintOffset maxNum maxDepth rest outputs2

/-- `StructFinder.find_struct`: iterate the target mappings. -/
def find_struct (read : ℕ → Except PyErr ℕ) (validate : ℕ → ℕ → Bool)
    (targetMappings : List MemMap) (structlen plen hintOffset : ℕ)
    (maxNum : ℤ) (maxDepth : ℕ) : Except PyErr (List (ℕ × ℕ)) :=
  find_struct_loop read validate structlen plen hintOffset maxNum maxDepth targetMappings []

/-- The search-space selection of `abouchet._search`: the whole handler
when `fullscan`, else the single mapping containing a non-zero `hint`
(`ValueError` when no mapping contains it), else `[mappings.get_heap()]`
(the `heap` parameter); a final emptiness check falls back to the whole
handler. -/
def search_target_mappings (mappings : List MemMap) (heap : MemMap)
    (fullscan : Bool) (hint : ℕ) : Except PyErr (List MemMap) :=
  if fullscan then .ok mappings
  else
    let tm : Except PyErr (List MemMap) :=
      if hint ≠ 0 then
        match mappings.find? (fun mm => mm.containsb hint) with
        | none => .error (.valueError "This hint is not a valid addr")
        | some m => .ok [m]
      else .ok [heap]
    match tm with
    | .error e => .error e
    | .ok t => .ok (if t.length = 0 then mappings else t)

/-- `abouchet._search` up to (and excluding) output formatting: select the
target mappings, then run `find_struct` with the hint. -/
def abouchet_search (read : ℕ → Except PyErr ℕ) (validate : ℕ → ℕ → Bool)
    (mappings : List MemMap) (heap : MemMap) (structlen plen : ℕ)
    (fullscan : Bool) (hint : ℕ) (maxnum : ℤ) (maxDepth : ℕ) :
    Except PyErr (List (ℕ × ℕ)) :=
  match search_target_mappings mappings heap fullscan hint with
  | .error e => .error e
  | .ok tms => find_struct read validate tms structlen plen hint maxnum maxDepth

/-- `VerboseStructFinder.loadAt`: increments `self._update_i`, invokes the
callback, then evaluates `StructFinder.loadAt(memoryMap, offset,
structType, depth=depth)`.  That expression is an unbound-method call
(Python 2) whose instance argument is missing, so it raises `TypeError`
before any load happens; the body moreover has no `return` statement, so
even a successful call would produce `None` rather than the
`(instance, validated)` pair.  The embedding returns the advanced counter
and the raised `TypeError`. -/
def verbose_loadAt (read : ℕ → Except PyErr ℕ) (validate : ℕ → ℕ → Bool)
    (update_i : ℕ) (offset depth : ℕ) : ℕ × Except PyErr (ℕ × Bool) :=
  (update_i + 1, .error .typeError)

/-- The four output formats of `abouchet._search` / `_output`. -/
inductive RType where
  | string
  | python
  | json
  | pickled
deriving DecidableEq

/-- The values `_output` can produce. -/
inductive OutVal where
  | text (s : String)
  | pyObj (l : List (ℕ × ℕ))
  | jsonStr (s : String)
  | pickledStr (s : String)
deriving DecidableEq

/-- `abouchet._output(memory_handler, outs, rtype)`.  `parseText` embeds
`RecursiveTextOutputter.parse`, `parsePy` embeds `PythonOutputter.parse`,
`hasCtypes` embeds `python.findCtypesInPyObj`, and `toJson`/`toPickle`
embed `json.dumps`/`pickle.dumps`; all are opaque external collaborators.
Zero results short-circuit to `None` (`.ok none`) before any formatting. -/
def abouchet_output (parseText : ℕ → String) (parsePy : ℕ → ℕ)
    (hasCtypes : List (ℕ × ℕ) → Bool) (toJson toPickle : List (ℕ × ℕ) → String)
    (outs : List (ℕ × ℕ)) (rtype : RType) : Except PyErr (Option OutVal) :=
  if outs.length = 0 then .ok none
  else if rtype = RType.string then
    .ok (some (.text ("[" ++
      (outs.foldl (fun acc p =>
        acc ++ "# --------------- 0x" ++ toString p.2 ++ " \n" ++ parseText p.1) "")
      ++ "]")))
  else
    let ret := outs.map (fun p => (parsePy p.1, p.2))
    if hasCtypes ret then
      .error (.haystackError "Bug in framework, some Ctypes are still in the return results.")
    else
      match rtype with
      | .python => .ok (some (.pyObj ret))
      | .json => .ok (some (.jsonStr (toJson ret)))
      | .pickled => .ok (some (.pickledStr (toPickle ret)))
      | .string => .ok none

/-- The zero-result handling of `abouchet._find_struct`: the pickled
subprocess results are returned as-is unless empty, in which case the
function returns `None`. -/
def find_struct_post (outs : List (ℕ × ℕ)) : Option (List (ℕ × ℕ)) :=
  if outs.length = 0 then none else some outs

/-! ### Heap finder: `WinHeapFinder._find_heap`, `list_heap_walkers` -/

/-- The environment of the heap finder: `readSig a` is the 4-byte unsigned
read `struct.unpack('I', mapping.read_bytes(a, 4))[0]`; `sigOffset bits`
is `self._cpu[bits]['signature_offset']`; `isHeap addr bits` is
`WinHeapFinder.__is_heap(mapping, addr, bits)`, i.e. the depth-1
`load_members` validation of the full `HEAP` record at `addr` with the
`bits`-wide layout. -/
structure HeapEnv where
  readSig : ℕ → ℕ
  sigOffset : ℕ → ℕ
  isHeap : ℕ → ℕ → Bool

/-- The inner loop of `WinHeapFinder._find_heap`: at a candidate address,
try the 32-bit then the 64-bit layout; succeed when the signature read at
the layout's signature offset is `0xeeffeeff` and the depth-1 validation
passes.  A walker is `(heap_address, bits)`. -/
def try_heap_at (env : HeapEnv) (addr : ℕ) : Option (ℕ × ℕ) :=
  [32, 64].findSome? (fun bits =>
    if env.readSig (addr + env.sigOffset bits) = 0xeeffeeff ∧ env.isHeap addr bits then
      some (addr, bits)
    else none)

/-- `WinHeapFinder._find_heap(mapping)`: walk the mapping by 4 KiB pages
and return the first walker found. -/
def find_heap (env : HeapEnv) (m : MemMap) : Option (ℕ × ℕ) :=
  (xrange m.start m.stop 0x1000).findSome? (try_heap_at env)

/-- Walkers are sorted by `walker.get_heap_address()`, the first
component. -/
def heapAddrLE (a b : ℕ × ℕ) : Prop := a.1 ≤ b.1

instance : DecidableRel heapAddrLE := fun a b => Nat.decLe a.1 b.1

instance : IsTotal (ℕ × ℕ) heapAddrLE := ⟨fun a b => Nat.le_total a.1 b.1⟩

instance : IsTrans (ℕ × ℕ) heapAddrLE := ⟨fun _ _ _ => Nat.le_trans⟩

/-- `WinHeapFinder.list_heap_walkers`: collect `_find_heap` over all
mappings, then sort by heap address (python's stable `list.sort(key=...)`,
embedded as a stable insertion sort). -/
def list_heap_walkers (env : HeapEnv) (mappings : List MemMap) : List (ℕ × ℕ) :=
  List.insertionSort heapAddrLE (mappings.filterMap (find_heap env))

deriving instance DecidableEq for Except

/-! ### Helper lemmas -/

theorem pos_of_check_sizes {s : Finset Chunk} {p : Chunk}
    (h : check_sizes s = true) (hp : p ∈ s) : 0 < p.2 :=
  (check_sizes_spec s).mp h p hp

/-! ### Claims about the heap walker -/

/-- Claim C1: for a confirmed Windows heap, with `A` the union of virtual
allocations and header-cut backend committed chunks and `Fb` the
header-cut backend free chunks, `FrontEndHeapType = 0` yields
`(user_allocations, free_chunks) = (A, Fb)` and `FrontEndHeapType = 2`
(LFH) yields `((A \ Fa) ∪ Aa, Fa ∪ Fb)` where `Fa`/`Aa` are the frontend
free/committed sets. -/
theorem set_chunk_lists_algebra (i : WalkerInput)
    (hv : check_sizes i.vallocs = true)
    (hc : check_sizes i.chunks = true)
    (hf : check_sizes i.free_chunks = true)
    (hba : check_sizes (i.vallocs ∪ cut_header i.sublen i.chunks) = true)
    (hbf : check_sizes (cut_header i.sublen i.free_chunks) = true)
    (hfa : check_sizes i.front_allocs = true)
    (hff : check_sizes i.front_free = true) :
    (i.frontEndHeapType = 0 →
      set_chunk_lists i = .ok (some (i.vallocs ∪ cut_header i.sublen i.chunks,
        cut_header i.sublen i.free_chunks))) ∧
    (i.frontEndHeapType = 2 →
      set_chunk_lists i = .ok (some
        (((i.vallocs ∪ cut_header i.sublen i.chunks) \ i.front_free) ∪ i.front_allocs,
         i.front_free ∪ cut_header i.sublen i.free_chunks))) := by
  constructor
  · intro h0
    simp [set_chunk_lists, check_sizes_guard_of_true hv, check_sizes_guard_of_true hc,
      check_sizes_guard_of_true hf, check_sizes_guard_of_true hba,
      check_sizes_guard_of_true hbf, h0]
  · intro h2
    simp [set_chunk_lists, check_sizes_guard_of_true hv, check_sizes_guard_of_true hc,
      check_sizes_guard_of_true hf, check_sizes_guard_of_true hba,
      check_sizes_guard_of_true hbf, check_sizes_guard_of_true hfa,
      check_sizes_guard_of_true hff, h2]

/-- A concrete LFH heap walk exercising `set_chunk_lists_algebra`. -/
def exC1 : WalkerInput where
  vallocs := {(4096, 64)}
  chunks := {(100, 24)}
  free_chunks := {(200, 16)}
  front_allocs := {(300, 8)}
  front_free := {(108, 16)}
  frontEndHeapType := 2
  sublen := 8

theorem set_chunk_lists_algebra_witness :
    set_chunk_lists exC1 = .ok (some
      (((exC1.vallocs ∪ cut_header exC1.sublen exC1.chunks) \ exC1.front_free) ∪ exC1.front_allocs,
       exC1.front_free ∪ cut_header exC1.sublen exC1.free_chunks)) :=
  (set_chunk_lists_algebra exC1 (by decide) (by decide) (by decide) (by decide)
    (by decide) (by decide) (by decide)).2 rfl

/-- Claim C2, counterexample: with LFH enabled (`FrontEndHeapType = 2`)
the walker emits the frontend committed pair `(100, 24)` exactly as the
validator returned it; the header-stripped pair `(108, 16)` demanded by
the claim is not what is returned (the comprehension stripping
`sizeof(HEAP_ENTRY)` from frontend chunks is commented out in the
source). -/
theorem frontend_header_not_cut_cex :
    set_chunk_lists
      { vallocs := ∅, chunks := ∅, free_chunks := ∅,
        front_allocs := {(100, 24)}, front_free := ∅,
        frontEndHeapType := 2, sublen := 8 }
      = .ok (some ({(100, 24)}, ∅)) ∧
    ({((100:ℤ), (24:ℤ))} : Finset Chunk) ≠ cut_header 8 {(100, 24)} := by
  constructor
  · decide
  · decide

/-- Claim C2 amended: only the backend committed and backend free chunks
are reported with the `HEAP_ENTRY` header removed
(`(addr + sizeof(HEAP_ENTRY), size - sizeof(HEAP_ENTRY))`); virtual
allocations and frontend (LAL/LFH) chunks are emitted exactly as produced
by the validator, with no header adjustment.  Every emitted pair therefore
comes from the header-cut backend sets, the raw virtual-allocation set, or
the raw frontend sets. -/
theorem chunk_lists_provenance (i : WalkerInput) (a f : Finset Chunk)
    (hok : set_chunk_lists i = .ok (some (a, f))) :
    a ⊆ (i.vallocs ∪ cut_header i.sublen i.chunks) ∪ i.front_allocs ∧
    f ⊆ cut_header i.sublen i.free_chunks ∪ i.front_free := by
  unfold set_chunk_lists at hok
  simp only [check_sizes_guard_ok_iff] at hok
  obtain ⟨-, -, -, -, -, hok⟩ := hok
  by_cases h0 : i.frontEndHeapType = 0
  · rw [if_pos h0] at hok
    simp only [Except.ok.injEq, Option.some.injEq, Prod.mk.injEq] at hok
    obtain ⟨ha, hf2⟩ := hok
    subst ha; subst hf2
    exact ⟨Finset.subset_union_left, Finset.subset_union_left⟩
  · rw [if_neg h0] at hok
    simp only [check_sizes_guard_ok_iff] at hok
    obtain ⟨-, -, -, -, hok⟩ := hok
    by_cases h1 : i.frontEndHeapType = 1
    · rw [if_pos h1] at hok
      simp only [Except.ok.injEq, Option.some.injEq, Prod.mk.injEq] at hok
      obtain ⟨ha, hf2⟩ := hok
      subst ha; subst hf2
      constructor
      · exact subset_trans (Finset.sdiff_subset) Finset.subset_union_left
      · intro p hp
        rcases Finset.mem_union.mp hp with h | h
        · exact Finset.mem_union_right _ h
        · exact Finset.mem_union_left _ h
    · rw [if_neg h1] at hok
      by_cases h2 : i.frontEndHeapType = 2
      · rw [if_pos h2] at hok
        simp only [Except.ok.injEq, Option.some.injEq, Prod.mk.injEq] at hok
        obtain ⟨ha, hf2⟩ := hok
        subst ha; subst hf2
        constructor
        · intro p hp
          rcases Finset.mem_union.mp hp with h | h
          · exact Finset.mem_union_left _ (Finset.sdiff_subset h)
          · exact Finset.mem_union_right _ h
        · intro p hp
          rcases Finset.mem_union.mp hp with h | h
          · exact Finset.mem_union_right _ h
          · exact Finset.mem_union_left _ h
      · rw [if_neg h2] at hok
        simp at hok

theorem chunk_lists_provenance_witness :
    ({((4096:ℤ), (64:ℤ)), ((300:ℤ), (8:ℤ))} : Finset Chunk) ⊆
      (exC1.vallocs ∪ cut_header exC1.sublen exC1.chunks) ∪ exC1.front_allocs :=
  (chunk_lists_provenance exC1
    ({(4096, 64), (300, 8)}) ({(108, 16), (208, 8)}) (by decide)).1

/-- Claim C3, counterexample: nothing in the walk rules out a backend free
chunk coinciding with a backend committed chunk; on such (corrupt but
signature-valid) input the two returned sets share the pair `(8, 8)`, so
`get_user_allocations()` and `get_free_chunks()` are not disjoint. -/
theorem user_free_not_disjoint_cex :
    set_chunk_lists
      { vallocs := ∅, chunks := {(0, 16)}, free_chunks := {(0, 16)},
        front_allocs := ∅, front_free := ∅,
        frontEndHeapType := 0, sublen := 8 }
      = .ok (some ({(8, 8)}, {(8, 8)})) ∧
    ¬ Disjoint ({((8:ℤ), (8:ℤ))} : Finset Chunk) {((8:ℤ), (8:ℤ))} := by
  constructor
  · decide
  · decide

/-- Claim C3 amended: the two returned sets are disjoint provided the
walker's raw inputs do not overlap, namely when the backend-allocated set
(virtual allocations plus header-cut committed chunks) is disjoint from
the header-cut backend free set, and the frontend committed set is
disjoint from both free sets.  This holds for every
`FrontEndHeapType ∈ {0, 1, 2}`. -/
theorem user_free_disjoint (i : WalkerInput)
    (hb : Disjoint (i.vallocs ∪ cut_header i.sublen i.chunks)
      (cut_header i.sublen i.free_chunks))
    (hfr : Disjoint i.front_allocs
      (i.front_free ∪ cut_header i.sublen i.free_chunks))
    (a f : Finset Chunk)
    (hok : set_chunk_lists i = .ok (some (a, f))) :
    Disjoint a f := by
  unfold set_chunk_lists at hok
  simp only [check_sizes_guard_ok_iff] at hok
  obtain ⟨-, -, -, -, -, hok⟩ := hok
  by_cases h0 : i.frontEndHeapType = 0
  · rw [if_pos h0] at hok
    simp only [Except.ok.injEq, Option.some.injEq, Prod.mk.injEq] at hok
    obtain ⟨ha, hf2⟩ := hok
    subst ha; subst hf2
    exact hb
  · rw [if_neg h0] at hok
    simp only [check_sizes_guard_ok_iff] at hok
    obtain ⟨-, -, -, -, hok⟩ := hok
    by_cases h1 : i.frontEndHeapType = 1
    · rw [if_pos h1] at hok
      simp only [Except.ok.injEq, Option.some.injEq, Prod.mk.injEq] at hok
      obtain ⟨ha, hf2⟩ := hok
      subst ha; subst hf2
      exact Finset.disjoint_union_right.mpr
        ⟨Finset.sdiff_disjoint, (hb.mono_left Finset.sdiff_subset)⟩
    · rw [if_neg h1] at hok
      by_cases h2 : i.frontEndHeapType = 2
      · rw [if_pos h2] at hok
        simp only [Except.ok.injEq, Option.some.injEq, Prod.mk.injEq] at hok
        obtain ⟨ha, hf2⟩ := hok
        subst ha; subst hf2
        refine Finset.disjoint_union_left.mpr ⟨?_, hfr⟩
        exact Finset.disjoint_union_right.mpr
          ⟨Finset.sdiff_disjoint, (hb.mono_left Finset.sdiff_subset)⟩
      · rw [if_neg h2] at hok
        simp at hok

theorem user_free_disjoint_witness :
    Disjoint ({((4096:ℤ), (64:ℤ)), ((300:ℤ), (8:ℤ))} : Finset Chunk)
      {((108:ℤ), (16:ℤ)), ((208:ℤ), (8:ℤ))} :=
  user_free_disjoint exC1 (by decide) (by decide)
    ({(4096, 64), (300, 8)}) ({(108, 16), (208, 8)}) (by decide)

/-- Claim C8: every chunk set produced during the walk is screened by
`_check_sizes`; whenever any produced set (virtual allocations, backend
committed/free before and after header cutting, and — when a frontend is
present — the frontend sets) holds a pair with non-positive size the walk
raises `ValueError`, and whenever the walk returns result sets every pair
in them has strictly positive size. -/
theorem set_chunk_lists_sizes (i : WalkerInput) :
    ((check_sizes i.vallocs = false ∨ check_sizes i.chunks = false ∨
      check_sizes i.free_chunks = false ∨
      check_sizes (i.vallocs ∪ cut_header i.sublen i.chunks) = false ∨
      check_sizes (cut_header i.sublen i.free_chunks) = false ∨
      (i.frontEndHeapType ≠ 0 ∧
        (check_sizes i.front_allocs = false ∨ check_sizes i.front_free = false))) →
      set_chunk_lists i = .error heap_corruption_error) ∧
    (∀ a f, set_chunk_lists i = .ok (some (a, f)) → ∀ p ∈ a ∪ f, 0 < p.2) := by
  constructor
  · intro h
    unfold set_chunk_lists
    simp only [check_sizes_guard_error_iff]
    rcases h with h | h | h | h | h | ⟨ht, h⟩
    all_goals try tauto
    refine Or.inr (Or.inr (Or.inr (Or.inr (Or.inr ?_))))
    rw [if_neg ht]
    simp only [check_sizes_guard_error_iff]
    tauto
  · intro a f hok p hp
    unfold set_chunk_lists at hok
    simp only [check_sizes_guard_ok_iff] at hok
    obtain ⟨-, -, -, hba, hbf, hok⟩ := hok
    by_cases h0 : i.frontEndHeapType = 0
    · rw [if_pos h0] at hok
      simp only [Except.ok.injEq, Option.some.injEq, Prod.mk.injEq] at hok
      obtain ⟨ha, hf2⟩ := hok
      subst ha; subst hf2
      rcases Finset.mem_union.mp hp with h | h
      · exact pos_of_check_sizes hba h
      · exact pos_of_check_sizes hbf h
    · rw [if_neg h0] at hok
      simp only [check_sizes_guard_ok_iff] at hok
      obtain ⟨hfa, hff, -, -, hok⟩ := hok
      by_cases h1 : i.frontEndHeapType = 1
      · rw [if_pos h1] at hok
        simp only [Except.ok.injEq, Option.some.injEq, Prod.mk.injEq] at hok
        obtain ⟨ha, hf2⟩ := hok
        subst ha; subst hf2
        rcases Finset.mem_union.mp hp with h | h
        · exact pos_of_check_sizes hba (Finset.sdiff_subset h)
        · rcases Finset.mem_union.mp h with h' | h'
          · exact pos_of_check_sizes hff h'
          · exact pos_of_check_sizes hbf h'
      · rw [if_neg h1] at hok
        by_cases h2 : i.frontEndHeapType = 2
        · rw [if_pos h2] at hok
          simp only [Except.ok.injEq, Option.some.injEq, Prod.mk.injEq] at hok
          obtain ⟨ha, hf2⟩ := hok
          subst ha; subst hf2
          rcases Finset.mem_union.mp hp with h | h
          · rcases Finset.mem_union.mp h with h' | h'
            · exact pos_of_check_sizes hba (Finset.sdiff_subset h')
            · exact pos_of_check_sizes hfa h'
          · rcases Finset.mem_union.mp h with h' | h'
            · exact pos_of_check_sizes hff h'
            · exact pos_of_check_sizes hbf h'
        · rw [if_neg h2] at hok
          simp at hok

theorem set_chunk_lists_sizes_witness :
    set_chunk_lists
      { vallocs := {(50, 0)}, chunks := ∅, free_chunks := ∅,
        front_allocs := ∅, front_free := ∅,
        frontEndHeapType := 0, sublen := 8 }
      = .error heap_corruption_error :=
  (set_chunk_lists_sizes _).1 (Or.inl (by decide))

/-! ### Helper lemmas about the searcher loops -/

theorem xrange_bounds {start stop step x : ℕ} (hstep : 0 < step)
    (hx : x ∈ xrange start stop step) : start ≤ x ∧ x < stop := by
  rw [xrange, List.mem_map] at hx
  obtain ⟨k, hk, rfl⟩ := hx
  rw [List.mem_range] at hk
  refine ⟨Nat.le_add_right _ _, ?_⟩
  have h2 : (k + 1) * step ≤ stop - start + step - 1 :=
    (Nat.le_div_iff_mul_le hstep).mp hk
  have h3 : k * step + step ≤ stop - start + step - 1 := by
    calc k * step + step = (k + 1) * step := by ring
    _ ≤ stop - start + step - 1 := h2
  omega

/-- Every pair produced by the scan loop was either carried in from the
accumulator or was found at one of the scanned offsets. -/
theorem scan_loop_ok_mem (load : ℕ → Except PyErr (ℕ × Bool)) (maxNum : ℤ) :
    ∀ (l : List ℕ) (acc res : List (ℕ × ℕ)),
      scan_loop load maxNum l acc = .ok res → ∀ p ∈ res, p ∈ acc ∨ p.2 ∈ l := by
  intro l
  induction l with
  | nil =>
    intro acc res h p hp
    simp only [scan_loop, Except.ok.injEq] at h
    subst h
    exact Or.inl hp
  | cons o rest ih =>
    intro acc res h p hp
    simp only [scan_loop] at h
    cases hl : load o with
    | error e =>
      rw [hl] at h
      exact absurd h (by simp)
    | ok v =>
      obtain ⟨inst, validated⟩ := v
      rw [hl] at h
      dsimp only at h
      have hout : ∀ q : ℕ × ℕ, q ∈ (if validated then acc ++ [(inst, o)] else acc) →
          q ∈ acc ∨ q.2 ∈ o :: rest := by
        intro q hq
        by_cases hval : validated = true
        · rw [if_pos hval] at hq
          rcases List.mem_append.mp hq with hq' | hq'
          · exact Or.inl hq'
          · right
            rw [List.mem_singleton.mp hq']
            exact List.mem_cons_self ..
        · rw [if_neg hval] at hq
          exact Or.inl hq
      by_cases hstop : maxNum ≤ (((if validated then acc ++ [(inst, o)] else acc).length : ℕ) : ℤ)
      · rw [if_pos hstop] at h
        simp only [Except.ok.injEq] at h
        subst h
        exact hout p hp
      · rw [if_neg hstop] at h
        rcases ih _ res h p hp with h' | h'
        · exact hout p h'
        · exact Or.inr (List.mem_cons_of_mem _ h')

/-- If every offset before `o` reads fine and the read at `o` raises, the
scan either propagates that error or had already stopped at the result
limit. -/
theorem scan_loop_error_propagates (load : ℕ → Except PyErr (ℕ × Bool)) (maxNum : ℤ) (e : PyErr) :
    ∀ (l1 : List ℕ) (o : ℕ) (l2 : List ℕ) (acc : List (ℕ × ℕ)),
      (∀ o' ∈ l1, ∃ v, load o' = .ok v) → load o = .error e →
      scan_loop load maxNum (l1 ++ o :: l2) acc = .error e ∨
      ∃ res, scan_loop load maxNum (l1 ++ o :: l2) acc = .ok res ∧
        maxNum ≤ (res.length : ℤ) := by
  intro l1
  induction l1 with
  | nil =>
    intro o l2 acc _ he
    left
    simp [scan_loop, he]
  | cons o' l1' ih =>
    intro o l2 acc hok he
    obtain ⟨v, hv⟩ := hok o' (List.mem_cons_self ..)
    obtain ⟨inst, validated⟩ := v
    simp only [List.cons_append, scan_loop, hv]
    by_cases hstop : maxNum ≤ (((if validated then acc ++ [(inst, o')] else acc).length : ℕ) : ℤ)
    · right
      exact ⟨_, by rw [if_pos hstop], hstop⟩
    · rw [if_neg hstop]
      exact ih o l2 _ (fun x hx => hok x (List.mem_cons_of_mem _ hx)) he

theorem align_start_of_contains {m : MemMap} {plen hint : ℕ}
    (hcont : m.containsb hint = true) :
    align_start m plen hint = hint - hint % plen := by
  simp [align_start, hcont]

theorem align_start_ge {m : MemMap} {plen hint : ℕ} (hplen : 0 < plen)
    (halign : plen ∣ m.start) (hcont : m.containsb hint = true) :
    m.start ≤ hint - hint % plen := by
  simp only [MemMap.containsb, decide_eq_true_eq] at hcont
  obtain ⟨q, hq⟩ := halign
  have hmod := Nat.mod_add_div hint plen
  have hdiv : q ≤ hint / plen := by
    rw [Nat.le_div_iff_mul_le hplen]
    calc q * plen = plen * q := Nat.mul_comm ..
    _ = m.start := hq.symm
    _ ≤ hint := hcont.1
  have hmul : plen * q ≤ plen * (hint / plen) := Nat.mul_le_mul_left _ hdiv
  omega

/-! ### Claims about the searcher -/

/-- Claim C4, code bug: with `maxNum = -1` the guard
`len(outputs) >= maxNum` in `find_struct_in` is satisfied from the very
first scanned offset (`0 >= -1`), so the loop breaks immediately instead
of being unbounded.  On a mapping `[0, 32)` where every one of the 7
aligned offsets holds a validated instance, the scan returns the single
result found at offset 0. -/
theorem find_struct_in_maxnum_minus_one_truncates :
    find_struct_in (fun o => .ok o) (fun _ _ => true) ⟨0, 32⟩ 4 4 0 (-1) 99
      = .ok [(0, 0)] ∧
    (xrange (align_start ⟨0, 32⟩ 4 0) (32 - 4) 4).length = 7 := by
  constructor
  · decide
  · decide

/-- Claim C5, counterexample: when the caller passes `fullscan = True`
together with a hint lying inside the second mapping `[64, 96)`,
`_search` does not restrict the scan to that mapping: the returned
results include `(0, 0)`, found in the first mapping `[0, 32)`, which
does not contain the hint `64`. -/
theorem search_hint_restricts_cex :
    abouchet_search (fun o => .ok o) (fun _ _ => true)
      [⟨0, 32⟩, ⟨64, 96⟩] ⟨0, 32⟩ 4 4 true 64 100 99
      = .ok [(0, 0), (4, 4), (8, 8), (12, 12), (16, 16), (20, 20), (24, 24),
             (64, 64), (68, 68), (72, 72), (76, 76), (80, 80), (84, 84), (88, 88)] ∧
    (0, 0) ∈ [((0:ℕ), (0:ℕ)), (4, 4), (8, 8), (12, 12), (16, 16), (20, 20), (24, 24),
             (64, 64), (68, 68), (72, 72), (76, 76), (80, 80), (84, 84), (88, 88)] ∧
    MemMap.containsb ⟨64, 96⟩ 0 = false := by
  refine ⟨by decide, by decide, by decide⟩

/-- Claim C5 amended: when `fullscan` is off and the caller supplies a
non-zero hint contained in some mapping `m` (whose start is
pointer-aligned), `_search` restricts the scan to exactly `m`, the cursor
starts at the hint aligned down to pointer width, and every returned
result address lies inside `m`. -/
theorem search_hint_restricts (read : ℕ → Except PyErr ℕ) (validate : ℕ → ℕ → Bool)
    (mappings : List MemMap) (heap m : MemMap) (structlen plen hint : ℕ)
    (maxnum : ℤ) (maxDepth : ℕ)
    (hplen : 0 < plen) (halign : plen ∣ m.start) (hhint : hint ≠ 0)
    (hfind : mappings.find? (fun mm => mm.containsb hint) = some m) :
    abouchet_search read validate mappings heap structlen plen false hint maxnum maxDepth
      = find_struct_in read validate m structlen plen hint maxnum maxDepth ∧
    align_start m plen hint = hint - hint % plen ∧
    (∀ l, find_struct_in read validate m structlen plen hint maxnum maxDepth = .ok l →
      ∀ p ∈ l, m.start ≤ p.2 ∧ p.2 < m.stop) := by
  have hcont : m.containsb hint = true := by
    have h := List.find?_some hfind
    exact h
  have hsel : search_target_mappings mappings heap false hint = .ok [m] := by
    simp [search_target_mappings, hhint, hfind]
  refine ⟨?_, align_start_of_contains hcont, ?_⟩
  · simp only [abouchet_search, hsel]
    unfold find_struct
    simp only [find_struct_loop]
    cases hin : find_struct_in read validate m structlen plen hint maxnum maxDepth with
    | error e => rfl
    | ok outs => simp [find_struct_loop]
  · intro l hl p hp
    unfold find_struct_in at hl
    rcases scan_loop_ok_mem _ maxnum _ [] l hl p hp with h | h
    · simp at h
    · have hb := xrange_bounds hplen h
      rw [align_start_of_contains hcont] at hb
      exact ⟨le_trans (align_start_ge hplen halign hcont) hb.1,
        lt_of_lt_of_le hb.2 (Nat.sub_le _ _)⟩

theorem search_hint_restricts_witness :
    abouchet_search (fun o => .ok o) (fun _ _ => true)
      [⟨0, 32⟩, ⟨64, 96⟩] ⟨0, 32⟩ 4 4 false 66 100 99
      = find_struct_in (fun o => .ok o) (fun _ _ => true) ⟨64, 96⟩ 4 4 66 100 99 ∧
    align_start ⟨64, 96⟩ 4 66 = 66 - 66 % 4 ∧
    (∀ l, find_struct_in (fun o => .ok o) (fun _ _ => true) ⟨64, 96⟩ 4 4 66 100 99 = .ok l →
      ∀ p ∈ l, (64:ℕ) ≤ p.2 ∧ p.2 < 96) :=
  search_hint_restricts (fun o => .ok o) (fun _ _ => true)
    [⟨0, 32⟩, ⟨64, 96⟩] ⟨0, 32⟩ ⟨64, 96⟩ 4 4 66 100 99
    (by decide) (by decide) (by decide) (by decide)

/-- The read backend used to exhibit the error behaviour of the scan: the
read at offset 4 raises `IOError`, every other offset reads fine. -/
def exRead6 : ℕ → Except PyErr ℕ :=
  fun o => if o = 4 then .error .ioError else .ok o

/-- Claim C6, counterexample: the scan loop of `find_struct_in` has no
`try`/`except`; when the read at the second aligned offset (offset 4 of
`[0, 32)`) raises `IOError`, the whole scan aborts with that error instead
of continuing at the next aligned offset (offset 0 had already produced a
validated result, which is lost, and offsets 8, 12, … are never
visited). -/
theorem ioerror_skip_cex :
    find_struct_in exRead6 (fun _ _ => true) ⟨0, 32⟩ 4 4 0 100 99
      = .error .ioError ∧
    exRead6 8 = .ok 8 := by
  refine ⟨by decide, by decide⟩

/-- Claim C6 amended: a per-offset `IoError` is not caught: if some
scanned offset's read raises while all offsets before it read fine, then
`find_struct_in` either propagates that very error — aborting the scan of
the region and losing all results gathered so far — or had already
stopped at the result limit strictly before reaching the failing
offset. -/
theorem find_struct_in_ioerror_aborts (read : ℕ → Except PyErr ℕ)
    (validate : ℕ → ℕ → Bool) (m : MemMap)
    (structlen plen hintOffset : ℕ) (maxNum : ℤ) (maxDepth : ℕ)
    (l1 l2 : List ℕ) (o : ℕ) (e : PyErr)
    (hsplit : xrange (align_start m plen hintOffset) (m.stop - structlen) plen
      = l1 ++ o :: l2)
    (hok : ∀ o' ∈ l1, ∃ v, read o' = .ok v)
    (he : read o = .error e) :
    find_struct_in read validate m structlen plen hintOffset maxNum maxDepth = .error e ∨
    ∃ res, find_struct_in read validate m structlen plen hintOffset maxNum maxDepth
      = .ok res ∧ maxNum ≤ (res.length : ℤ) := by
  unfold find_struct_in
  rw [hsplit]
  refine scan_loop_error_propagates _ maxNum e l1 o l2 [] ?_ ?_
  · intro o' ho'
    obtain ⟨v, hv⟩ := hok o' ho'
    exact ⟨(v, validate v maxDepth), by simp [loadAt, hv]⟩
  · simp [loadAt, he]

theorem find_struct_in_ioerror_aborts_witness :
    find_struct_in exRead6 (fun _ _ => true) ⟨0, 32⟩ 4 4 0 100 99 = .error .ioError ∨
    ∃ res, find_struct_in exRead6 (fun _ _ => true) ⟨0, 32⟩ 4 4 0 100 99
      = .ok res ∧ (100 : ℤ) ≤ (res.length : ℤ) :=
  find_struct_in_ioerror_aborts exRead6 (fun _ _ => true) ⟨0, 32⟩ 4 4 0 100 99
    [0] [8, 12, 16, 20, 24] 4 .ioError (by decide)
    (by
      intro o' ho'
      rw [List.mem_singleton] at ho'
      subst ho'
      exact ⟨0, rfl⟩)
    (by decide)

/-- Claim C7, code bug: on the very same inputs, `StructFinder.loadAt`
returns the `(instance, validated)` pair, while
`VerboseStructFinder.loadAt` raises `TypeError` (its delegation
`StructFinder.loadAt(memoryMap, offset, structType, depth=depth)` misses
the instance argument, and the body has no `return`), so attaching the
progress callback changes the search results. -/
theorem verbose_loadAt_differs :
    loadAt (fun o => .ok (o + 1)) (fun _ _ => true) 0 10 = .ok (1, true) ∧
    (verbose_loadAt (fun o => .ok (o + 1)) (fun _ _ => true) 0 0 10).2
      = .error .typeError ∧
    (verbose_loadAt (fun o => .ok (o + 1)) (fun _ _ => true) 0 0 10).2
      ≠ loadAt (fun o => .ok (o + 1)) (fun _ _ => true) 0 10 := by
  refine ⟨by decide, by decide, by decide⟩

/-- Claim C10: when the search finds zero validated instances, `_output`
returns `None` for every output format (python, string, json, pickled)
before any formatting happens, and `_find_struct` likewise maps an empty
result list to `None`; callers never receive an empty collection as the
zero-result value. -/
theorem zero_results_give_none (parseText : ℕ → String) (parsePy : ℕ → ℕ)
    (hasCtypes : List (ℕ × ℕ) → Bool) (toJson toPickle : List (ℕ × ℕ) → String)
    (rtype : RType) :
    abouchet_output parseText parsePy hasCtypes toJson toPickle [] rtype = .ok none ∧
    find_struct_post [] = none := by
  constructor
  · simp [abouchet_output]
  · simp [find_struct_post]

/-! ### Claims about the heap finder -/

theorem findSome_eq_some_mem {α β : Type} (f : α → Option β) :
    ∀ (l : List α) (b : β), l.findSome? f = some b → ∃ a ∈ l, f a = some b := by
  intro l
  induction l with
  | nil => intro b h; simp [List.findSome?] at h
  | cons x xs ih =>
    intro b h
    rw [List.findSome?] at h
    cases hfx : f x with
    | some y =>
      rw [hfx] at h
      exact ⟨x, List.mem_cons_self .., by rw [hfx]; exact h⟩
    | none =>
      rw [hfx] at h
      obtain ⟨a, ha, hfa⟩ := ih b h
      exact ⟨a, List.mem_cons_of_mem _ ha, hfa⟩

/-- Claim C9: `list_heap_walkers()` returns the walkers sorted in
ascending heap-address order, and every returned walker comes from a
page-aligned candidate of some mapping whose 4-byte signature read at the
selected layout's signature offset equals `0xEEFFEEFF` and which passed
the depth-1 validation of the full `HEAP` record. -/
theorem list_heap_walkers_sorted_and_validated (env : HeapEnv) (mappings : List MemMap) :
    List.Sorted heapAddrLE (list_heap_walkers env mappings) ∧
    ∀ w ∈ list_heap_walkers env mappings,
      (∃ m ∈ mappings, w.1 ∈ xrange m.start m.stop 0x1000) ∧
      env.readSig (w.1 + env.sigOffset w.2) = 0xeeffeeff ∧
      env.isHeap w.1 w.2 = true := by
  constructor
  · exact List.sorted_insertionSort heapAddrLE _
  · intro w hw
    rw [list_heap_walkers, List.mem_insertionSort] at hw
    obtain ⟨m, hm, hfm⟩ := List.mem_filterMap.mp hw
    obtain ⟨addr, haddr, hta⟩ := findSome_eq_some_mem _ _ _ hfm
    obtain ⟨bits, -, hbits⟩ := findSome_eq_some_mem _ _ _ hta
    by_cases hcond : env.readSig (addr + env.sigOffset bits) = 0xeeffeeff ∧
        env.isHeap addr bits
    · rw [if_pos hcond] at hbits
      injection hbits with hw
      subst hw
      exact ⟨⟨m, hm, haddr⟩, hcond.1, hcond.2⟩
    · rw [if_neg hcond] at hbits
      exact absurd hbits (by simp)

/-- A two-page mapping whose second page holds a 32-bit heap signature
that validates at depth 1. -/
def exEnv : HeapEnv where
  readSig := fun a => if a = 0x2008 then 0xeeffeeff else 0
  sigOffset := fun bits => if bits = 32 then 8 else 16
  isHeap := fun addr bits => decide (addr = 0x2000 ∧ bits = 32)

theorem list_heap_walkers_witness :
    (∃ m ∈ [(⟨0x1000, 0x3000⟩ : MemMap)], (0x2000 : ℕ) ∈ xrange m.start m.stop 0x1000) ∧
    exEnv.readSig (0x2000 + exEnv.sigOffset 32) = 0xeeffeeff ∧
    exEnv.isHeap 0x2000 32 = true :=
  (list_heap_walkers_sorted_and_validated exEnv [⟨0x1000, 0x3000⟩]).2
    (0x2000, 32) (by decide)

end Haystack
